import Mathlib

/-!
# The KVM paravirtual clock device (`hw/kvm/clock.c`)

A shallow embedding of the three entry points of the device,
`kvmclock_pre_save`, `kvmclock_post_load` and `kvmclock_vm_state_change`,
and theorems about them.

The C functions talk to the host through `kvm_vm_ioctl`, `kvm_vcpu_ioctl`,
`kvm_check_extension`, `runstate_is_running` and `fprintf (stderr, ...)`.
Here every function receives what the host answers as an argument and
returns, next to the device state it leaves, the list of calls it made, in
the order it made them.
-/

namespace KVMClock

/-- Handle of one virtual CPU (a node of the list that starts at `first_cpu`
and is linked through `next_cpu`). -/
abbrev CPUArchState := Nat

/-- The errno constant `EINVAL` of the host's `<errno.h>`; KVM exists on Linux
only, where it is 22. -/
def EINVAL : Int := 22

/-- The device state `struct KVMClockState`, without the `busdev` header that
none of the functions below touches. `clock` is the `uint64_t` field: it is
only ever copied, never computed with. -/
structure KVMClockState where
  clock : Nat
  clock_valid : Bool
  deriving DecidableEq, Repr

/-- One call the device makes to its surroundings. -/
inductive Call where
  /-- The ioctl `kvm_vm_ioctl (kvm_state, KVM_GET_CLOCK, &data)`. -/
  | get_clock : Call
  /-- The ioctl `kvm_vm_ioctl (kvm_state, KVM_SET_CLOCK, &data)` with the
  contents of `data.clock` and `data.flags`. -/
  | set_clock (clock : Nat) (flags : Nat) : Call
  /-- The query `kvm_check_extension (kvm_state, KVM_CAP_KVMCLOCK_CTRL)`. -/
  | check_extension : Call
  /-- The ioctl `kvm_vcpu_ioctl (penv, KVM_KVMCLOCK_CTRL, 0)`. -/
  | kvmclock_ctrl (penv : CPUArchState) : Call
  /-- A line written with `fprintf (stderr, ...)`; `err` is the argument
  handed to `strerror`. -/
  | fprintf (err : Int) : Call
  deriving DecidableEq, Repr

/-- What running one of the C functions yields: its return value, the device
state it leaves and the calls it made, oldest first. -/
structure Ran (α : Type) where
  ret : α
  s : KVMClockState
  calls : List Call

/-- The function `kvmclock_pre_save` (clock.c, lines 31 to 52).
`kvm_get_clock` is what `KVM_GET_CLOCK` answers if it is called: the return
code and the contents of `data.clock` once the call is back.
`runstate_is_running` is the answer of `runstate_is_running ()`. -/
def kvmclock_pre_save (s : KVMClockState) (kvm_get_clock : Int × Nat)
    (runstate_is_running : Bool) : Ran Unit :=
  if s.clock_valid then
    ⟨(), s, []⟩
  else
    let ret := kvm_get_clock.1
    let data_clock := if ret < 0 then 0 else kvm_get_clock.2
    let printed := if ret < 0 then [Call.fprintf ret] else []
    ⟨(), ⟨data_clock, !runstate_is_running⟩, Call.get_clock :: printed⟩

/-- The function `kvmclock_post_load` (clock.c, lines 54 to 62).
`kvm_set_clock clock flags` is the return code of `KVM_SET_CLOCK` for the
`data` it is given. -/
def kvmclock_post_load (s : KVMClockState) (_version_id : Int)
    (kvm_set_clock : Nat → Nat → Int) : Ran Int :=
  let data_clock := s.clock
  let data_flags := 0
  ⟨kvm_set_clock data_clock data_flags, s, [Call.set_clock data_clock data_flags]⟩

/-- The `for` loop of `kvmclock_vm_state_change` (clock.c, lines 78 to 86) over
the list of virtual CPUs that is left to visit; `kvm_vcpu_ioctl penv` is the
return code of the `KVM_KVMCLOCK_CTRL` ioctl on `penv`. The result is the
list of calls the loop makes. -/
def kvmclock_vm_state_change_for (kvm_vcpu_ioctl : CPUArchState → Int) :
    List CPUArchState → List Call
  | [] => []
  | penv :: next_cpu =>
    let ret := kvm_vcpu_ioctl penv
    if ret ≠ 0 then
      if ret ≠ -EINVAL then
        [Call.kvmclock_ctrl penv, Call.fprintf (-ret)]
      else
        [Call.kvmclock_ctrl penv]
    else
      Call.kvmclock_ctrl penv :: kvmclock_vm_state_change_for kvm_vcpu_ioctl next_cpu

/-- The function `kvmclock_vm_state_change` (clock.c, lines 64 to 88).
`first_cpu` is the list of virtual CPUs, `kvm_check_extension` the answer to
the `KVM_CAP_KVMCLOCK_CTRL` query, `kvm_vcpu_ioctl` as in the loop. -/
def kvmclock_vm_state_change (s : KVMClockState) (running : Int) (_state : Nat)
    (first_cpu : List CPUArchState) (kvm_check_extension : Int)
    (kvm_vcpu_ioctl : CPUArchState → Int) : Ran Unit :=
  let cap_clock_ctrl := kvm_check_extension
  if running ≠ 0 then
    if cap_clock_ctrl = 0 then
      ⟨(), ⟨s.clock, false⟩, [Call.check_extension]⟩
    else
      ⟨(), ⟨s.clock, false⟩,
        Call.check_extension :: kvmclock_vm_state_change_for kvm_vcpu_ioctl first_cpu⟩
  else
    ⟨(), s, [Call.check_extension]⟩

/-! ## Reading a list of calls -/

/-- How many times `KVM_GET_CLOCK` was called. -/
def reads (calls : List Call) : Nat :=
  calls.count Call.get_clock

/-- The `KVM_SET_CLOCK` calls, as the clock values they were given. -/
def written : List Call → List Nat
  | [] => []
  | Call.set_clock clock _ :: rest => clock :: written rest
  | _ :: rest => written rest

/-- The virtual CPUs that received a `KVM_KVMCLOCK_CTRL` ioctl, in call order. -/
def notified : List Call → List CPUArchState
  | [] => []
  | Call.kvmclock_ctrl penv :: rest => penv :: notified rest
  | _ :: rest => notified rest

/-- The lines written to `stderr`, as the error codes they report. -/
def diagnostics : List Call → List Int
  | [] => []
  | Call.fprintf err :: rest => err :: diagnostics rest
  | _ :: rest => diagnostics rest

/-! ## The device driven by a sequence of events -/

/-- One event the surrounding framework delivers to the device, with the
answers the host gives during it. -/
inductive Op where
  /-- A save: `kvmclock_pre_save` runs. -/
  | pre_save (kvm_get_clock : Int × Nat) : Op
  /-- A load: `kvmclock_post_load` runs. -/
  | post_load (version_id : Int) (kvm_set_clock : Nat → Nat → Int) : Op
  /-- A change of run state: `kvmclock_vm_state_change` runs. -/
  | vm_state_change (running : Int) (state : Nat) (first_cpu : List CPUArchState)
      (kvm_check_extension : Int) (kvm_vcpu_ioctl : CPUArchState → Int) : Op

/-- The device together with the run state of the machine and the calls made
so far. -/
structure VM where
  s : KVMClockState
  running : Bool
  calls : List Call

/-- Deliver one event. A save sees the current run state through
`runstate_is_running ()`; a change of run state makes `running ≠ 0` the
current run state and runs the handler. -/
def VM.step (vm : VM) : Op → VM
  | Op.pre_save kvm_get_clock =>
    let r := kvmclock_pre_save vm.s kvm_get_clock vm.running
    ⟨r.s, vm.running, vm.calls ++ r.calls⟩
  | Op.post_load version_id kvm_set_clock =>
    let r := kvmclock_post_load vm.s version_id kvm_set_clock
    ⟨r.s, vm.running, vm.calls ++ r.calls⟩
  | Op.vm_state_change running state first_cpu kvm_check_extension kvm_vcpu_ioctl =>
    let r := kvmclock_vm_state_change vm.s running state first_cpu kvm_check_extension
      kvm_vcpu_ioctl
    ⟨r.s, decide (running ≠ 0), vm.calls ++ r.calls⟩

/-- Deliver a sequence of events, first to last. -/
def VM.run (vm : VM) (ops : List Op) : VM :=
  ops.foldl VM.step vm

/-! ## The description of the saved record -/

/-- The members of `struct KVMClockState`, as a field description names them. -/
inductive Member where
  | busdev : Member
  | clock : Member
  | clock_valid : Member
  deriving DecidableEq, Repr

/-- One entry of the `fields` array of a `VMStateDescription`: the member of
the state structure that is saved and its width in bits. -/
structure VMStateField where
  member : Member
  bits : Nat
  deriving DecidableEq, Repr

/-- Modelled from the spec: the macro `VMSTATE_UINT64 (field, state)` comes
from the framework's headers, which are not among the sources; by its name
and by the spec (the persisted field is the 64-bit clock value) it describes
one saved field of 64 bits, the named member of the state structure. -/
def VMSTATE_UINT64 (field : Member) : VMStateField :=
  ⟨field, 64⟩

/-- The part of `VMStateDescription` that `kvmclock_vmsd` fills in. `fields`
is the array up to its `VMSTATE_END_OF_LIST ()` terminator. -/
structure VMStateDescription where
  name : String
  version_id : Int
  minimum_version_id : Int
  minimum_version_id_old : Int
  pre_save : KVMClockState → Int × Nat → Bool → Ran Unit
  post_load : KVMClockState → Int → (Nat → Nat → Int) → Ran Int
  fields : List VMStateField

/-- The constant `kvmclock_vmsd` (clock.c, lines 98 to 109). -/
def kvmclock_vmsd : VMStateDescription :=
  ⟨"kvmclock", 1, 1, 1, kvmclock_pre_save, kvmclock_post_load,
    [VMSTATE_UINT64 Member.clock]⟩

/-! ## Lemmas on a single save -/

theorem pre_save_of_valid (s : KVMClockState) (g : Int × Nat) (b : Bool)
    (h : s.clock_valid = true) : kvmclock_pre_save s g b = ⟨(), s, []⟩ := by
  simp [kvmclock_pre_save, h]

theorem pre_save_of_invalid (s : KVMClockState) (g : Int × Nat) (b : Bool)
    (h : s.clock_valid = false) :
    kvmclock_pre_save s g b =
      ⟨(), ⟨if g.1 < 0 then 0 else g.2, !b⟩,
        Call.get_clock :: (if g.1 < 0 then [Call.fprintf g.1] else [])⟩ := by
  simp [kvmclock_pre_save, h]

theorem reads_pre_save_le (s : KVMClockState) (g : Int × Nat) (b : Bool) :
    reads (kvmclock_pre_save s g b).calls ≤ 1 := by
  cases h : s.clock_valid
  · rw [pre_save_of_invalid s g b h]
    by_cases hg : g.1 < 0 <;> simp [reads, hg]
  · rw [pre_save_of_valid s g b h]
    simp [reads]

theorem reads_append (xs ys : List Call) : reads (xs ++ ys) = reads xs + reads ys := by
  simp [reads]

/-! ## Claims on save and load -/

/-- C5: a save that finds `clock_valid` set returns with the device state as
it was and without any call, so in particular without a `KVM_GET_CLOCK`. -/
theorem C5_pre_save_valid_unchanged (s : KVMClockState) (kvm_get_clock : Int × Nat)
    (runstate_is_running : Bool) (h : s.clock_valid = true) :
    (kvmclock_pre_save s kvm_get_clock runstate_is_running).s = s ∧
    (kvmclock_pre_save s kvm_get_clock runstate_is_running).s.clock_valid = true ∧
    (kvmclock_pre_save s kvm_get_clock runstate_is_running).calls = [] ∧
    reads (kvmclock_pre_save s kvm_get_clock runstate_is_running).calls = 0 := by
  rw [pre_save_of_valid s _ _ h]
  exact ⟨rfl, h, rfl, rfl⟩

theorem C5_pre_save_valid_unchanged_witness :
    (⟨7, true⟩ : KVMClockState).clock_valid = true ∧
    (kvmclock_pre_save ⟨7, true⟩ (0, 9) true).s = ⟨7, true⟩ ∧
    (kvmclock_pre_save ⟨7, true⟩ (0, 9) true).s.clock_valid = true ∧
    (kvmclock_pre_save ⟨7, true⟩ (0, 9) true).calls = [] ∧
    reads (kvmclock_pre_save ⟨7, true⟩ (0, 9) true).calls = 0 :=
  ⟨rfl, C5_pre_save_valid_unchanged ⟨7, true⟩ (0, 9) true rfl⟩

/-- C6: a save that finds `clock_valid` clear and whose `KVM_GET_CLOCK`
succeeds (return code not negative) makes that one call and nothing else,
stores the reading in `clock` and sets `clock_valid` to the negation of the
run state. -/
theorem C6_pre_save_invalid_read_ok (s : KVMClockState) (kvm_get_clock : Int × Nat)
    (runstate_is_running : Bool) (h : s.clock_valid = false) (hret : 0 ≤ kvm_get_clock.1) :
    (kvmclock_pre_save s kvm_get_clock runstate_is_running).calls = [Call.get_clock] ∧
    reads (kvmclock_pre_save s kvm_get_clock runstate_is_running).calls = 1 ∧
    (kvmclock_pre_save s kvm_get_clock runstate_is_running).s.clock = kvm_get_clock.2 ∧
    (kvmclock_pre_save s kvm_get_clock runstate_is_running).s.clock_valid
      = !runstate_is_running := by
  rw [pre_save_of_invalid s _ _ h]
  have hn : ¬ kvm_get_clock.1 < 0 := not_lt.mpr hret
  simp [hn, reads]

theorem C6_pre_save_invalid_read_ok_witness :
    (⟨7, false⟩ : KVMClockState).clock_valid = false ∧ (0 : Int) ≤ ((0, 9) : Int × Nat).1 ∧
    (kvmclock_pre_save ⟨7, false⟩ (0, 9) false).calls = [Call.get_clock] ∧
    reads (kvmclock_pre_save ⟨7, false⟩ (0, 9) false).calls = 1 ∧
    (kvmclock_pre_save ⟨7, false⟩ (0, 9) false).s.clock = 9 ∧
    (kvmclock_pre_save ⟨7, false⟩ (0, 9) false).s.clock_valid = true :=
  ⟨rfl, by decide, C6_pre_save_invalid_read_ok ⟨7, false⟩ (0, 9) false rfl (by decide)⟩

/-- C7: a save that finds `clock_valid` clear and whose `KVM_GET_CLOCK` fails
(negative return code), whatever `data.clock` holds afterwards, leaves
`clock = 0`, sets `clock_valid` to the negation of the run state (set when
stopped, clear when running), writes one line to `stderr` and returns to its
caller, to which it has nothing to report (the function is `void`). -/
theorem C7_pre_save_read_failure_absorbed (s : KVMClockState) (kvm_get_clock : Int × Nat)
    (runstate_is_running : Bool) (h : s.clock_valid = false) (hret : kvm_get_clock.1 < 0) :
    (kvmclock_pre_save s kvm_get_clock runstate_is_running).s.clock = 0 ∧
    (kvmclock_pre_save s kvm_get_clock runstate_is_running).s.clock_valid
      = !runstate_is_running ∧
    (runstate_is_running = false →
      (kvmclock_pre_save s kvm_get_clock runstate_is_running).s.clock_valid = true) ∧
    (runstate_is_running = true →
      (kvmclock_pre_save s kvm_get_clock runstate_is_running).s.clock_valid = false) ∧
    diagnostics (kvmclock_pre_save s kvm_get_clock runstate_is_running).calls
      = [kvm_get_clock.1] ∧
    (kvmclock_pre_save s kvm_get_clock runstate_is_running).calls
      = [Call.get_clock, Call.fprintf kvm_get_clock.1] ∧
    (kvmclock_pre_save s kvm_get_clock runstate_is_running).ret = () := by
  rw [pre_save_of_invalid s _ _ h]
  simp [hret, diagnostics]

theorem C7_pre_save_read_failure_absorbed_witness :
    (⟨7, false⟩ : KVMClockState).clock_valid = false ∧ ((-5, 9) : Int × Nat).1 < 0 ∧
    (kvmclock_pre_save ⟨7, false⟩ (-5, 9) false).s = ⟨0, true⟩ ∧
    diagnostics (kvmclock_pre_save ⟨7, false⟩ (-5, 9) false).calls = [-5] :=
  ⟨rfl, by decide,
    by
      have h := C7_pre_save_read_failure_absorbed ⟨7, false⟩ (-5, 9) false rfl (by decide)
      exact ⟨by decide, h.2.2.2.2.1⟩⟩

/-- C8: a load, whatever `clock_valid` is and whatever `KVM_SET_CLOCK` answers,
makes exactly one call, `KVM_SET_CLOCK` with `data.clock` equal to the stored
`clock` (and `data.flags = 0`), returns the return code of that call as its
own, and leaves the device state as it was. -/
theorem C8_post_load_writes_and_propagates (s : KVMClockState) (version_id : Int)
    (kvm_set_clock : Nat → Nat → Int) :
    (kvmclock_post_load s version_id kvm_set_clock).calls = [Call.set_clock s.clock 0] ∧
    written (kvmclock_post_load s version_id kvm_set_clock).calls = [s.clock] ∧
    (kvmclock_post_load s version_id kvm_set_clock).ret = kvm_set_clock s.clock 0 ∧
    (∀ c : Int, (kvmclock_post_load s version_id (fun _ _ => c)).ret = c) ∧
    (kvmclock_post_load s version_id kvm_set_clock).s = s := by
  simp [kvmclock_post_load, written]

/-- C9: a save directly followed by a load hands `KVM_SET_CLOCK` exactly the
`clock` the save left in the device: the cached value if `clock_valid` was
set, else 0 if `KVM_GET_CLOCK` failed, else the reading. -/
theorem C9_pre_save_post_load_round_trip (s : KVMClockState) (kvm_get_clock : Int × Nat)
    (runstate_is_running : Bool) (version_id : Int) (kvm_set_clock : Nat → Nat → Int) :
    written (kvmclock_post_load (kvmclock_pre_save s kvm_get_clock runstate_is_running).s
        version_id kvm_set_clock).calls
      = [(kvmclock_pre_save s kvm_get_clock runstate_is_running).s.clock] ∧
    (kvmclock_pre_save s kvm_get_clock runstate_is_running).s.clock
      = (if s.clock_valid = true then s.clock
         else if kvm_get_clock.1 < 0 then 0 else kvm_get_clock.2) ∧
    written (VM.run ⟨s, runstate_is_running, []⟩
        [Op.pre_save kvm_get_clock, Op.post_load version_id kvm_set_clock]).calls
      = [if s.clock_valid = true then s.clock
         else if kvm_get_clock.1 < 0 then 0 else kvm_get_clock.2] := by
  cases h : s.clock_valid
  · by_cases hg : kvm_get_clock.1 < 0 <;>
      simp [VM.run, VM.step, pre_save_of_invalid s _ _ h, kvmclock_post_load, written, hg]
  · simp [VM.run, VM.step, pre_save_of_valid s _ _ h, kvmclock_post_load, written]

/-! ## Sequences of saves -/

theorem run_nil (vm : VM) : VM.run vm [] = vm := rfl

theorem run_cons (vm : VM) (op : Op) (ops : List Op) :
    VM.run vm (op :: ops) = VM.run (vm.step op) ops := rfl

theorem run_append (vm : VM) (ops ops' : List Op) :
    VM.run vm (ops ++ ops') = VM.run (VM.run vm ops) ops' := by
  simp [VM.run, List.foldl_append]

/-- Saves delivered to a device whose `clock_valid` is set change nothing. -/
theorem run_pre_saves_of_valid (gs : List (Int × Nat)) (vm : VM)
    (h : vm.s.clock_valid = true) : VM.run vm (gs.map Op.pre_save) = vm := by
  induction gs with
  | nil => rfl
  | cons g gs ih =>
    have hstep : vm.step (Op.pre_save g) = vm := by
      simp [VM.step, pre_save_of_valid vm.s g vm.running h]
    rw [List.map_cons, run_cons, hstep, ih]

/-- The first save of a stopped machine leaves `clock_valid` set. -/
theorem pre_save_stopped_valid (s : KVMClockState) (g : Int × Nat) :
    (kvmclock_pre_save s g false).s.clock_valid = true := by
  cases h : s.clock_valid
  · rw [pre_save_of_invalid s g false h]; rfl
  · rw [pre_save_of_valid s g false h]; exact h

/-- C2: saves of a machine that stays stopped. Whatever the device state at
the start and whatever `KVM_GET_CLOCK` would answer to each save, the device
state after the first save and any number of further ones is the state after
the first save alone, and the whole sequence calls `KVM_GET_CLOCK` at most
once. -/
theorem C2_pre_save_idempotent_while_stopped (s : KVMClockState) (g : Int × Nat)
    (gs : List (Int × Nat)) :
    (∀ k : Nat, (VM.run ⟨s, false, []⟩ ((g :: gs.take k).map Op.pre_save)).s
        = (kvmclock_pre_save s g false).s) ∧
    (VM.run ⟨s, false, []⟩ ((g :: gs).map Op.pre_save)).s = (kvmclock_pre_save s g false).s ∧
    reads (VM.run ⟨s, false, []⟩ ((g :: gs).map Op.pre_save)).calls ≤ 1 := by
  have key : ∀ l : List (Int × Nat),
      VM.run ⟨s, false, []⟩ ((g :: l).map Op.pre_save)
        = ⟨(kvmclock_pre_save s g false).s, false, (kvmclock_pre_save s g false).calls⟩ := by
    intro l
    rw [List.map_cons, run_cons]
    have hstep : (⟨s, false, []⟩ : VM).step (Op.pre_save g)
        = ⟨(kvmclock_pre_save s g false).s, false, (kvmclock_pre_save s g false).calls⟩ := by
      simp [VM.step]
    rw [hstep]
    exact run_pre_saves_of_valid l _ (pre_save_stopped_valid s g)
  refine ⟨fun k => ?_, ?_, ?_⟩
  · rw [key]
  · rw [key]
  · rw [key]
    exact reads_pre_save_le s g false

/-! ## The run-state handler -/

theorem vm_state_change_s_of_running (s : KVMClockState) (running : Int) (state : Nat)
    (first_cpu : List CPUArchState) (cap : Int) (f : CPUArchState → Int)
    (h : running ≠ 0) :
    (kvmclock_vm_state_change s running state first_cpu cap f).s = ⟨s.clock, false⟩ := by
  by_cases hc : cap = 0 <;> simp [kvmclock_vm_state_change, h, hc]

theorem vm_state_change_s_of_stopped (s : KVMClockState) (state : Nat)
    (first_cpu : List CPUArchState) (cap : Int) (f : CPUArchState → Int) :
    (kvmclock_vm_state_change s 0 state first_cpu cap f).s = s := by
  simp [kvmclock_vm_state_change]

/-- C3: the handler called with `running` non-zero, whatever the device state,
the answer to the capability query and the return codes of the per-CPU
ioctls, leaves `clock_valid` clear and `clock` as it was, and the save that
follows calls `KVM_GET_CLOCK` exactly once. -/
theorem C3_resume_invalidates (s : KVMClockState) (running : Int) (state : Nat)
    (first_cpu : List CPUArchState) (kvm_check_extension : Int)
    (kvm_vcpu_ioctl : CPUArchState → Int) (h : running ≠ 0) :
    (kvmclock_vm_state_change s running state first_cpu kvm_check_extension
      kvm_vcpu_ioctl).s.clock_valid = false ∧
    (kvmclock_vm_state_change s running state first_cpu kvm_check_extension
      kvm_vcpu_ioctl).s.clock = s.clock ∧
    ∀ (kvm_get_clock : Int × Nat) (runstate_is_running : Bool),
      reads (kvmclock_pre_save
        (kvmclock_vm_state_change s running state first_cpu kvm_check_extension
          kvm_vcpu_ioctl).s kvm_get_clock runstate_is_running).calls = 1 := by
  rw [vm_state_change_s_of_running s running state first_cpu _ _ h]
  refine ⟨rfl, rfl, fun g b => ?_⟩
  rw [pre_save_of_invalid _ g b rfl]
  by_cases hg : g.1 < 0 <;> simp [reads, hg]

theorem C3_resume_invalidates_witness :
    (1 : Int) ≠ 0 ∧
    (kvmclock_vm_state_change ⟨7, true⟩ 1 0 [0, 1] 1 (fun _ => -5)).s = ⟨7, false⟩ ∧
    reads (kvmclock_pre_save
      (kvmclock_vm_state_change ⟨7, true⟩ 1 0 [0, 1] 1 (fun _ => -5)).s (0, 9) true).calls
      = 1 :=
  ⟨by decide, by decide,
    (C3_resume_invalidates ⟨7, true⟩ 1 0 [0, 1] 1 (fun _ => -5) (by decide)).2.2 (0, 9) true⟩

/-- One event keeps: `clock_valid` set only in a stopped machine. -/
theorem step_keeps_valid_stopped (vm : VM) (op : Op)
    (h : vm.s.clock_valid = true → vm.running = false) :
    (vm.step op).s.clock_valid = true → (vm.step op).running = false := by
  cases op with
  | pre_save g =>
    cases hv : vm.s.clock_valid
    · cases hr : vm.running <;> simp [VM.step, pre_save_of_invalid vm.s g _ hv, hr]
    · simp [VM.step, pre_save_of_valid vm.s g _ hv, hv, h hv]
  | post_load v f =>
    simpa [VM.step, kvmclock_post_load] using h
  | vm_state_change running state first_cpu cap f =>
    by_cases hr : running = 0
    · subst hr
      simp [VM.step, vm_state_change_s_of_stopped]
    · simp [VM.step, vm_state_change_s_of_running vm.s running state first_cpu cap f hr]

theorem run_keeps_valid_stopped (ops : List Op) (vm : VM)
    (h : vm.s.clock_valid = true → vm.running = false) :
    (VM.run vm ops).s.clock_valid = true → (VM.run vm ops).running = false := by
  induction ops generalizing vm with
  | nil => exact h
  | cons op ops ih =>
    rw [run_cons]
    exact ih (vm.step op) (step_keeps_valid_stopped vm op h)

/-- C4: start the device with `clock_valid` clear, in either run state, and
deliver any sequence of saves (each seeing the current run state), loads and
run-state changes (to running or to stopped, each running the handler): in
the state reached, `clock_valid` set implies that the machine is stopped. -/
theorem C4_valid_only_while_stopped (clock : Nat) (running : Bool) (ops : List Op) :
    (VM.run ⟨⟨clock, false⟩, running, []⟩ ops).s.clock_valid = true →
    (VM.run ⟨⟨clock, false⟩, running, []⟩ ops).running = false :=
  run_keeps_valid_stopped ops _ (fun h => by simp at h)

theorem C4_valid_only_while_stopped_witness :
    (VM.run ⟨⟨7, false⟩, true, []⟩
      [Op.vm_state_change 0 0 [0] 1 (fun _ => 0), Op.pre_save (0, 9)]).s.clock_valid = true ∧
    (VM.run ⟨⟨7, false⟩, true, []⟩
      [Op.vm_state_change 0 0 [0] 1 (fun _ => 0), Op.pre_save (0, 9)]).running = false :=
  ⟨by decide, C4_valid_only_while_stopped 7 true
    [Op.vm_state_change 0 0 [0] 1 (fun _ => 0), Op.pre_save (0, 9)] (by decide)⟩

/-! ## The loop over the virtual CPUs -/

theorem vm_state_change_calls_of_running (s : KVMClockState) (running : Int) (state : Nat)
    (first_cpu : List CPUArchState) (cap : Int) (f : CPUArchState → Int)
    (h : running ≠ 0) (hc : cap ≠ 0) :
    (kvmclock_vm_state_change s running state first_cpu cap f).calls
      = Call.check_extension :: kvmclock_vm_state_change_for f first_cpu := by
  simp [kvmclock_vm_state_change, h, hc]

theorem notified_map_ctrl (cpus : List CPUArchState) :
    notified (cpus.map Call.kvmclock_ctrl) = cpus := by
  induction cpus with
  | nil => rfl
  | cons c cpus ih => simp [notified, ih]

theorem diagnostics_map_ctrl (cpus : List CPUArchState) :
    diagnostics (cpus.map Call.kvmclock_ctrl) = [] := by
  induction cpus with
  | nil => rfl
  | cons c cpus ih => simp [diagnostics, ih]

/-- The loop up to and including the first virtual CPU whose ioctl does not
return 0: every CPU before it is called, then it is called, then the loop is
left, with a line on `stderr` unless the code is `-EINVAL`. -/
theorem for_stops_at (f : CPUArchState → Int) (k : Nat) (cpus : List CPUArchState)
    (c : CPUArchState) (hk : cpus[k]? = some c) (h0 : ∀ d ∈ cpus.take k, f d = 0)
    (hc : f c ≠ 0) :
    kvmclock_vm_state_change_for f cpus
      = (cpus.take (k + 1)).map Call.kvmclock_ctrl
        ++ (if f c ≠ -EINVAL then [Call.fprintf (-(f c))] else []) := by
  induction k generalizing cpus with
  | zero =>
    cases cpus with
    | nil => simp at hk
    | cons d cpus =>
      simp at hk
      subst hk
      simp only [kvmclock_vm_state_change_for]
      rw [if_pos hc]
      by_cases he : f d = -EINVAL <;> simp [he]
  | succ k ih =>
    cases cpus with
    | nil => simp at hk
    | cons d cpus =>
      have hd : f d = 0 := h0 d (by simp)
      have hk' : cpus[k]? = some c := by simpa using hk
      have h0' : ∀ e ∈ cpus.take k, f e = 0 := fun e he => h0 e (by simp [he])
      have := ih cpus hk' h0'
      simp [kvmclock_vm_state_change_for, hd, this]

/-- Whatever the ioctls return, the CPUs the loop calls are the first `m` of
the list, for an `m` that does not go past the first CPU with a non-zero
return code. -/
theorem for_notified_take (f : CPUArchState → Int) (cpus : List CPUArchState) :
    ∃ m : Nat, notified (kvmclock_vm_state_change_for f cpus) = cpus.take m ∧
      ∀ (k : Nat) (c : CPUArchState), cpus[k]? = some c → f c ≠ 0 → m ≤ k + 1 := by
  induction cpus with
  | nil => exact ⟨0, rfl, fun k c hk => by simp at hk⟩
  | cons d cpus ih =>
    by_cases hd : f d = 0
    · obtain ⟨m, hm, hle⟩ := ih
      refine ⟨m + 1, by simp [kvmclock_vm_state_change_for, hd, notified, hm], ?_⟩
      intro k c hk hc
      cases k with
      | zero =>
        simp at hk
        subst hk
        exact absurd hd hc
      | succ k =>
        have hk' : cpus[k]? = some c := by simpa using hk
        have := hle k c hk' hc
        omega
    · refine ⟨1, ?_, fun k c _ _ => by omega⟩
      simp only [kvmclock_vm_state_change_for]
      rw [if_pos hd]
      by_cases he : f d = -EINVAL <;> simp [he, notified]

/-- In a list without repetition, an element at a position past `m` is not
among the first `m`. -/
theorem not_mem_take_of_nodup (cpus : List CPUArchState) (hn : cpus.Nodup) (m j : Nat)
    (c : CPUArchState) (hj : cpus[j]? = some c) (hmj : m ≤ j) : c ∉ cpus.take m := by
  intro hmem
  obtain ⟨i, hi, hget⟩ := List.getElem_of_mem hmem
  have hil : i < m := by
    have := hi
    simp [List.length_take] at this
    omega
  have hjl : j < cpus.length := by
    by_contra hcon
    have : cpus[j]? = none := by simp; omega
    rw [this] at hj
    cases hj
  have hil2 : i < cpus.length := by
    simp [List.length_take] at hi
    omega
  have h1 : cpus[i] = c := by
    rw [List.getElem_take] at hget
    exact hget
  have h2 : cpus[j] = c := by
    have := List.getElem?_eq_getElem hjl
    rw [this] at hj
    exact Option.some.inj hj
  have hij : i = j := (List.Nodup.getElem_inj_iff hn).mp (h1.trans h2.symm)
  omega

theorem notified_append (xs ys : List Call) :
    notified (xs ++ ys) = notified xs ++ notified ys := by
  induction xs with
  | nil => rfl
  | cons x xs ih => cases x <;> simp [notified, ih]

theorem diagnostics_append (xs ys : List Call) :
    diagnostics (xs ++ ys) = diagnostics xs ++ diagnostics ys := by
  induction xs with
  | nil => rfl
  | cons x xs ih => cases x <;> simp [diagnostics, ih]

/-! ## Claims on the loop -/

/-- C1, as the claim states it, fails: with two virtual CPUs, the first of
which answers `-EINVAL` (nothing was called before it), the handler does not
go on to the second one: it makes the capability query and the ioctl on the
first CPU and returns. -/
theorem C1_counterexample :
    ([0, 1] : List CPUArchState)[0]? = some 0 ∧
    ([0, 1] : List CPUArchState)[1]? = some 1 ∧
    (if (0 : CPUArchState) = 0 then -EINVAL else 0) = -EINVAL ∧
    (∀ d ∈ ([0, 1] : List CPUArchState).take 0, (if d = 0 then -EINVAL else 0) = (0 : Int)) ∧
    (kvmclock_vm_state_change ⟨7, true⟩ 1 0 [0, 1] 1
      (fun penv => if penv = 0 then -EINVAL else 0)).calls
      = [Call.check_extension, Call.kvmclock_ctrl 0] ∧
    1 ∉ notified (kvmclock_vm_state_change ⟨7, true⟩ 1 0 [0, 1] 1
      (fun penv => if penv = 0 then -EINVAL else 0)).calls := by
  decide

/-- C1, amended: on a change to running with the capability present, if the
ioctl on the virtual CPU at position `k` returns `-EINVAL` and the ioctls on
all CPUs before it returned 0, then nothing is written to `stderr` and the
handler returns right there: it has called the CPUs up to and including
position `k`, each once and in list order, and calls no later one. -/
theorem C1_einval_silent_and_stops (s : KVMClockState) (running : Int) (state : Nat)
    (first_cpu : List CPUArchState) (kvm_check_extension : Int)
    (kvm_vcpu_ioctl : CPUArchState → Int) (k : Nat) (penv : CPUArchState)
    (hrun : running ≠ 0) (hcap : kvm_check_extension ≠ 0)
    (hk : first_cpu[k]? = some penv)
    (hbefore : ∀ d ∈ first_cpu.take k, kvm_vcpu_ioctl d = 0)
    (hret : kvm_vcpu_ioctl penv = -EINVAL) :
    diagnostics (kvmclock_vm_state_change s running state first_cpu kvm_check_extension
      kvm_vcpu_ioctl).calls = [] ∧
    notified (kvmclock_vm_state_change s running state first_cpu kvm_check_extension
      kvm_vcpu_ioctl).calls = first_cpu.take (k + 1) ∧
    (kvmclock_vm_state_change s running state first_cpu kvm_check_extension
      kvm_vcpu_ioctl).calls
      = Call.check_extension :: (first_cpu.take (k + 1)).map Call.kvmclock_ctrl := by
  have hne : kvm_vcpu_ioctl penv ≠ 0 := by rw [hret]; decide
  rw [vm_state_change_calls_of_running s running state first_cpu _ _ hrun hcap,
    for_stops_at kvm_vcpu_ioctl k first_cpu penv hk hbefore hne]
  simp only [hret, ne_eq, not_true_eq_false, if_false, List.append_nil, diagnostics, notified]
  exact ⟨diagnostics_map_ctrl _, notified_map_ctrl _, trivial⟩

theorem C1_einval_silent_and_stops_witness :
    diagnostics (kvmclock_vm_state_change ⟨7, true⟩ 1 0 [0, 1, 2] 1
      (fun penv => if penv = 1 then -EINVAL else 0)).calls = [] ∧
    notified (kvmclock_vm_state_change ⟨7, true⟩ 1 0 [0, 1, 2] 1
      (fun penv => if penv = 1 then -EINVAL else 0)).calls = [0, 1] ∧
    (kvmclock_vm_state_change ⟨7, true⟩ 1 0 [0, 1, 2] 1
      (fun penv => if penv = 1 then -EINVAL else 0)).calls
      = [Call.check_extension, Call.kvmclock_ctrl 0, Call.kvmclock_ctrl 1] :=
  C1_einval_silent_and_stops ⟨7, true⟩ 1 0 [0, 1, 2] 1
    (fun penv => if penv = 1 then -EINVAL else 0) 1 1
    (by decide) (by decide) (by decide) (by decide) (by decide)

/-- C10: on a change to running with the capability present, if the ioctl on
the virtual CPU at position `k` returns a code that is neither 0 nor
`-EINVAL`, then the CPUs called in this transition are the first `m` of the
list for some `m ≤ k + 1`, so that no CPU at a later position is called (when
the handles in the list are distinct: no CPU found at a position past `k` is
among the called ones). When all CPUs before position `k` returned 0, the
CPUs called are exactly those up to and including position `k`, and the one
line on `stderr` is the report of that failure. -/
theorem C10_fail_fast (s : KVMClockState) (running : Int) (state : Nat)
    (first_cpu : List CPUArchState) (kvm_check_extension : Int)
    (kvm_vcpu_ioctl : CPUArchState → Int) (k : Nat) (penv : CPUArchState)
    (hrun : running ≠ 0) (hcap : kvm_check_extension ≠ 0)
    (hk : first_cpu[k]? = some penv)
    (hret : kvm_vcpu_ioctl penv ≠ 0) (hother : kvm_vcpu_ioctl penv ≠ -EINVAL) :
    (∃ m : Nat, m ≤ k + 1 ∧
      notified (kvmclock_vm_state_change s running state first_cpu kvm_check_extension
        kvm_vcpu_ioctl).calls = first_cpu.take m) ∧
    (first_cpu.Nodup → ∀ (j : Nat) (later : CPUArchState), k < j →
      first_cpu[j]? = some later →
      later ∉ notified (kvmclock_vm_state_change s running state first_cpu
        kvm_check_extension kvm_vcpu_ioctl).calls) ∧
    ((∀ d ∈ first_cpu.take k, kvm_vcpu_ioctl d = 0) →
      notified (kvmclock_vm_state_change s running state first_cpu kvm_check_extension
        kvm_vcpu_ioctl).calls = first_cpu.take (k + 1) ∧
      diagnostics (kvmclock_vm_state_change s running state first_cpu kvm_check_extension
        kvm_vcpu_ioctl).calls = [-(kvm_vcpu_ioctl penv)]) := by
  rw [vm_state_change_calls_of_running s running state first_cpu _ _ hrun hcap]
  obtain ⟨m, hm, hle⟩ := for_notified_take kvm_vcpu_ioctl first_cpu
  have hmk : m ≤ k + 1 := hle k penv hk hret
  have hnot : notified (Call.check_extension :: kvmclock_vm_state_change_for kvm_vcpu_ioctl
      first_cpu) = first_cpu.take m := by
    simpa [notified] using hm
  refine ⟨⟨m, hmk, hnot⟩, ?_, ?_⟩
  · intro hn j later hj hlater
    rw [hnot]
    exact not_mem_take_of_nodup first_cpu hn m j later hlater (by omega)
  · intro hbefore
    rw [for_stops_at kvm_vcpu_ioctl k first_cpu penv hk hbefore hret]
    simp only [if_pos hother, diagnostics, notified, diagnostics_append, notified_append,
      diagnostics_map_ctrl, notified_map_ctrl, List.append_nil, List.nil_append]
    exact ⟨trivial, trivial⟩

theorem C10_fail_fast_witness :
    notified (kvmclock_vm_state_change ⟨7, true⟩ 1 0 [0, 1, 2] 1
      (fun penv => if penv = 1 then -5 else 0)).calls = [0, 1] ∧
    2 ∉ notified (kvmclock_vm_state_change ⟨7, true⟩ 1 0 [0, 1, 2] 1
      (fun penv => if penv = 1 then -5 else 0)).calls ∧
    diagnostics (kvmclock_vm_state_change ⟨7, true⟩ 1 0 [0, 1, 2] 1
      (fun penv => if penv = 1 then -5 else 0)).calls = [5] := by
  have h := C10_fail_fast ⟨7, true⟩ 1 0 [0, 1, 2] 1
    (fun penv => if penv = 1 then -5 else 0) 1 1
    (by decide) (by decide) (by decide) (by decide) (by decide)
  exact ⟨(h.2.2 (by decide)).1, h.2.1 (by decide) 2 2 (by decide) (by decide),
    (h.2.2 (by decide)).2⟩

/-! ## More on the loop: what it never calls -/

theorem for_all_zero (f : CPUArchState → Int) (cpus : List CPUArchState)
    (h : ∀ d ∈ cpus, f d = 0) :
    kvmclock_vm_state_change_for f cpus = cpus.map Call.kvmclock_ctrl := by
  induction cpus with
  | nil => rfl
  | cons d cpus ih =>
    have hd : f d = 0 := h d (by simp)
    have ht : ∀ e ∈ cpus, f e = 0 := fun e he => h e (by simp [he])
    simp [kvmclock_vm_state_change_for, hd, ih ht]

theorem for_count_check_extension (f : CPUArchState → Int) (cpus : List CPUArchState) :
    (kvmclock_vm_state_change_for f cpus).count Call.check_extension = 0 := by
  induction cpus with
  | nil => rfl
  | cons d cpus ih =>
    simp only [kvmclock_vm_state_change_for]
    by_cases hd : f d = 0
    · simpa [hd] using ih
    · rw [if_pos hd]
      by_cases he : f d = -EINVAL <;> simp [he]

theorem for_reads (f : CPUArchState → Int) (cpus : List CPUArchState) :
    reads (kvmclock_vm_state_change_for f cpus) = 0 := by
  induction cpus with
  | nil => rfl
  | cons d cpus ih =>
    simp only [kvmclock_vm_state_change_for]
    by_cases hd : f d = 0
    · simpa [hd, reads] using ih
    · rw [if_pos hd]
      by_cases he : f d = -EINVAL <;> simp [he, reads]

theorem for_written (f : CPUArchState → Int) (cpus : List CPUArchState) :
    written (kvmclock_vm_state_change_for f cpus) = [] := by
  induction cpus with
  | nil => rfl
  | cons d cpus ih =>
    simp only [kvmclock_vm_state_change_for]
    by_cases hd : f d = 0
    · simpa [hd, written] using ih
    · rw [if_pos hd]
      by_cases he : f d = -EINVAL <;> simp [he, written]

theorem vm_state_change_calls_cons (s : KVMClockState) (running : Int) (state : Nat)
    (first_cpu : List CPUArchState) (cap : Int) (f : CPUArchState → Int) :
    ∃ rest : List Call,
      (kvmclock_vm_state_change s running state first_cpu cap f).calls
        = Call.check_extension :: rest ∧
      rest.count Call.check_extension = 0 ∧ reads rest = 0 ∧ written rest = [] := by
  by_cases hr : running = 0
  · exact ⟨[], by simp [kvmclock_vm_state_change, hr], rfl, rfl, rfl⟩
  · by_cases hc : cap = 0
    · exact ⟨[], by simp [kvmclock_vm_state_change, hr, hc], rfl, rfl, rfl⟩
    · exact ⟨kvmclock_vm_state_change_for f first_cpu,
        by simp [kvmclock_vm_state_change, hr, hc],
        for_count_check_extension f first_cpu, for_reads f first_cpu,
        for_written f first_cpu⟩

/-! ## Claims on the handler -/

/-- C11: a change to running when the capability query answers 0 makes no
`KVM_KVMCLOCK_CTRL` ioctl at all (the query is the only call), and still
clears `clock_valid`, leaving `clock` as it was. -/
theorem C11_no_capability_no_notification (s : KVMClockState) (running : Int) (state : Nat)
    (first_cpu : List CPUArchState) (kvm_check_extension : Int)
    (kvm_vcpu_ioctl : CPUArchState → Int)
    (hrun : running ≠ 0) (hcap : kvm_check_extension = 0) :
    notified (kvmclock_vm_state_change s running state first_cpu kvm_check_extension
      kvm_vcpu_ioctl).calls = [] ∧
    (kvmclock_vm_state_change s running state first_cpu kvm_check_extension
      kvm_vcpu_ioctl).calls = [Call.check_extension] ∧
    (kvmclock_vm_state_change s running state first_cpu kvm_check_extension
      kvm_vcpu_ioctl).s = ⟨s.clock, false⟩ := by
  simp [kvmclock_vm_state_change, hrun, hcap, notified]

theorem C11_no_capability_no_notification_witness :
    notified (kvmclock_vm_state_change ⟨7, true⟩ 1 0 [0, 1] 0 (fun _ => 0)).calls = [] ∧
    (kvmclock_vm_state_change ⟨7, true⟩ 1 0 [0, 1] 0 (fun _ => 0)).calls
      = [Call.check_extension] ∧
    (kvmclock_vm_state_change ⟨7, true⟩ 1 0 [0, 1] 0 (fun _ => 0)).s = ⟨7, false⟩ :=
  C11_no_capability_no_notification ⟨7, true⟩ 1 0 [0, 1] 0 (fun _ => 0) (by decide) rfl

/-- C12: the handler called with `running = 0`, whatever the device state, the
capability answer, the list of virtual CPUs and their ioctl codes, leaves the
device state as it was (`clock` and `clock_valid`), makes no
`KVM_KVMCLOCK_CTRL` ioctl and writes nothing to `stderr`. -/
theorem C12_stop_edge_changes_nothing (s : KVMClockState) (state : Nat)
    (first_cpu : List CPUArchState) (kvm_check_extension : Int)
    (kvm_vcpu_ioctl : CPUArchState → Int) :
    (kvmclock_vm_state_change s 0 state first_cpu kvm_check_extension kvm_vcpu_ioctl).s = s ∧
    notified (kvmclock_vm_state_change s 0 state first_cpu kvm_check_extension
      kvm_vcpu_ioctl).calls = [] ∧
    diagnostics (kvmclock_vm_state_change s 0 state first_cpu kvm_check_extension
      kvm_vcpu_ioctl).calls = [] := by
  simp [kvmclock_vm_state_change, notified, diagnostics]

/-- C13: on a change to running with the capability present, if the ioctl
returns 0 on every virtual CPU, then the CPUs called are exactly the list
from `first_cpu` on, in its order, each position once, and nothing is
written to `stderr`. -/
theorem C13_all_notified_on_success (s : KVMClockState) (running : Int) (state : Nat)
    (first_cpu : List CPUArchState) (kvm_check_extension : Int)
    (kvm_vcpu_ioctl : CPUArchState → Int)
    (hrun : running ≠ 0) (hcap : kvm_check_extension ≠ 0)
    (hok : ∀ d ∈ first_cpu, kvm_vcpu_ioctl d = 0) :
    notified (kvmclock_vm_state_change s running state first_cpu kvm_check_extension
      kvm_vcpu_ioctl).calls = first_cpu ∧
    diagnostics (kvmclock_vm_state_change s running state first_cpu kvm_check_extension
      kvm_vcpu_ioctl).calls = [] ∧
    (kvmclock_vm_state_change s running state first_cpu kvm_check_extension
      kvm_vcpu_ioctl).calls = Call.check_extension :: first_cpu.map Call.kvmclock_ctrl := by
  rw [vm_state_change_calls_of_running s running state first_cpu _ _ hrun hcap,
    for_all_zero kvm_vcpu_ioctl first_cpu hok]
  simp only [notified, diagnostics]
  exact ⟨notified_map_ctrl _, diagnostics_map_ctrl _, trivial⟩

theorem C13_all_notified_on_success_witness :
    notified (kvmclock_vm_state_change ⟨7, true⟩ 1 0 [0, 1, 2] 1 (fun _ => 0)).calls
      = [0, 1, 2] ∧
    diagnostics (kvmclock_vm_state_change ⟨7, true⟩ 1 0 [0, 1, 2] 1 (fun _ => 0)).calls
      = [] ∧
    (kvmclock_vm_state_change ⟨7, true⟩ 1 0 [0, 1, 2] 1 (fun _ => 0)).calls
      = [Call.check_extension, Call.kvmclock_ctrl 0, Call.kvmclock_ctrl 1,
         Call.kvmclock_ctrl 2] :=
  C13_all_notified_on_success ⟨7, true⟩ 1 0 [0, 1, 2] 1 (fun _ => 0)
    (by decide) (by decide) (by simp)

/-- C19: every run of the handler makes the capability query exactly once, as
its first call, whatever `running` is; with `running = 0` the query is the
only call, the device state is unchanged and no virtual CPU is called. -/
theorem C19_capability_queried_every_time (s : KVMClockState) (running : Int) (state : Nat)
    (first_cpu : List CPUArchState) (kvm_check_extension : Int)
    (kvm_vcpu_ioctl : CPUArchState → Int) :
    (kvmclock_vm_state_change s running state first_cpu kvm_check_extension
      kvm_vcpu_ioctl).calls.count Call.check_extension = 1 ∧
    (kvmclock_vm_state_change s running state first_cpu kvm_check_extension
      kvm_vcpu_ioctl).calls.head? = some Call.check_extension ∧
    (kvmclock_vm_state_change s 0 state first_cpu kvm_check_extension
      kvm_vcpu_ioctl).calls = [Call.check_extension] ∧
    (kvmclock_vm_state_change s 0 state first_cpu kvm_check_extension
      kvm_vcpu_ioctl).s = s := by
  obtain ⟨rest, hcalls, hcount, _, _⟩ :=
    vm_state_change_calls_cons s running state first_cpu kvm_check_extension kvm_vcpu_ioctl
  refine ⟨?_, ?_, by simp [kvmclock_vm_state_change], by simp [kvmclock_vm_state_change]⟩
  · rw [hcalls]; simp [hcount]
  · rw [hcalls]; rfl

/-- C15: the description `kvmclock_vmsd` lists exactly one saved field, the
member `clock` with 64 bits; `clock_valid` is not among the fields; and the
version identifier equals the minimum version, both being 1. -/
theorem C15_persisted_record :
    kvmclock_vmsd.fields = [VMSTATE_UINT64 Member.clock] ∧
    kvmclock_vmsd.fields.length = 1 ∧
    (∀ field ∈ kvmclock_vmsd.fields, field.member = Member.clock ∧ field.bits = 64) ∧
    (∀ field ∈ kvmclock_vmsd.fields, field.member ≠ Member.clock_valid) ∧
    kvmclock_vmsd.version_id = kvmclock_vmsd.minimum_version_id ∧
    kvmclock_vmsd.version_id = 1 ∧ kvmclock_vmsd.minimum_version_id = 1 := by
  simp [kvmclock_vmsd, VMSTATE_UINT64]

/-! ## The exact shape of one pass of the loop -/

theorem mem_take_of_getElem? (cpus : List CPUArchState) (i k : Nat) (c : CPUArchState)
    (h : cpus[i]? = some c) (hik : i < k) : c ∈ cpus.take k := by
  have : (cpus.take k)[i]? = some c := by
    rw [List.getElem?_take_of_lt hik]
    exact h
  exact List.getElem?_mem this

/-- Either every ioctl returns 0, or there is a first position whose ioctl
does not. -/
theorem for_cases (f : CPUArchState → Int) (cpus : List CPUArchState) :
    (∀ d ∈ cpus, f d = 0) ∨
    ∃ (k : Nat) (c : CPUArchState),
      cpus[k]? = some c ∧ (∀ d ∈ cpus.take k, f d = 0) ∧ f c ≠ 0 := by
  induction cpus with
  | nil => exact Or.inl (fun d hd => by simp at hd)
  | cons d cpus ih =>
    by_cases hd : f d = 0
    · rcases ih with hall | ⟨k, c, hk, hbefore, hc⟩
      · left
        intro e he
        rcases List.mem_cons.mp he with rfl | he'
        · exact hd
        · exact hall e he'
      · right
        refine ⟨k + 1, c, by simpa using hk, ?_, hc⟩
        intro e he
        rw [List.take_succ_cons] at he
        rcases List.mem_cons.mp he with rfl | he'
        · exact hd
        · exact hbefore e he'
    · exact Or.inr ⟨0, d, by simp, fun e he => by simp at he, hd⟩

/-- The CPUs the loop calls, by the position of the first non-zero code. -/
theorem for_notified_findIdx (f : CPUArchState → Int) (cpus : List CPUArchState) :
    notified (kvmclock_vm_state_change_for f cpus)
      = cpus.take (cpus.findIdx (fun penv => decide (f penv ≠ 0)) + 1) := by
  induction cpus with
  | nil => rfl
  | cons d cpus ih =>
    simp only [kvmclock_vm_state_change_for, List.findIdx_cons]
    by_cases hd : f d = 0
    · simp [hd, notified, ih]
    · rw [if_pos hd]
      have hp : decide (f d ≠ 0) = true := by simpa using hd
      simp only [hp, cond_true, Nat.zero_add, List.take_succ_cons, List.take_zero]
      by_cases he : f d = -EINVAL <;> simp [he, notified]

/-- C18: on a change to running with the capability present, whatever the
ioctls return, the CPUs called are the list up to and including the first
position whose ioctl returns a non-zero code of any kind, and the whole list
when there is none. So the calls follow the list order without a gap, and
when the handles of the list are distinct no CPU is called twice. -/
theorem C18_notification_pass_shape (s : KVMClockState) (running : Int) (state : Nat)
    (first_cpu : List CPUArchState) (kvm_check_extension : Int)
    (kvm_vcpu_ioctl : CPUArchState → Int)
    (hrun : running ≠ 0) (hcap : kvm_check_extension ≠ 0) :
    notified (kvmclock_vm_state_change s running state first_cpu kvm_check_extension
        kvm_vcpu_ioctl).calls
      = first_cpu.take (first_cpu.findIdx (fun penv => decide (kvm_vcpu_ioctl penv ≠ 0)) + 1) ∧
    ((∀ d ∈ first_cpu, kvm_vcpu_ioctl d = 0) →
      notified (kvmclock_vm_state_change s running state first_cpu kvm_check_extension
        kvm_vcpu_ioctl).calls = first_cpu) ∧
    (notified (kvmclock_vm_state_change s running state first_cpu kvm_check_extension
        kvm_vcpu_ioctl).calls).Sublist first_cpu ∧
    (first_cpu.Nodup →
      (notified (kvmclock_vm_state_change s running state first_cpu kvm_check_extension
        kvm_vcpu_ioctl).calls).Nodup) := by
  have hshape : notified (kvmclock_vm_state_change s running state first_cpu
      kvm_check_extension kvm_vcpu_ioctl).calls
      = first_cpu.take
          (first_cpu.findIdx (fun penv => decide (kvm_vcpu_ioctl penv ≠ 0)) + 1) := by
    rw [vm_state_change_calls_of_running s running state first_cpu _ _ hrun hcap]
    simpa [notified] using for_notified_findIdx kvm_vcpu_ioctl first_cpu
  refine ⟨hshape, ?_, ?_, ?_⟩
  · intro hok
    rw [vm_state_change_calls_of_running s running state first_cpu _ _ hrun hcap,
      for_all_zero kvm_vcpu_ioctl first_cpu hok]
    simpa [notified] using notified_map_ctrl first_cpu
  · rw [hshape]
    exact List.take_sublist _ _
  · intro hn
    rw [hshape]
    exact (List.take_sublist _ _).nodup hn

theorem C18_notification_pass_shape_witness :
    notified (kvmclock_vm_state_change ⟨7, true⟩ 1 0 [0, 1, 2, 3] 1
      (fun penv => if penv = 1 then 4 else if penv = 2 then -5 else 0)).calls = [0, 1] ∧
    notified (kvmclock_vm_state_change ⟨7, true⟩ 1 0 [0, 1, 2, 3] 1
      (fun penv => if penv = 1 then -EINVAL else 0)).calls = [0, 1] ∧
    notified (kvmclock_vm_state_change ⟨7, true⟩ 1 0 [0, 1, 2, 3] 1
      (fun _ => 0)).calls = [0, 1, 2, 3] :=
  ⟨(C18_notification_pass_shape ⟨7, true⟩ 1 0 [0, 1, 2, 3] 1
      (fun penv => if penv = 1 then 4 else if penv = 2 then -5 else 0)
      (by decide) (by decide)).1,
    by decide, by decide⟩

/-! ## When the loop writes to `stderr` -/

/-- What one pass of the loop calls and prints, in terms of the first position
with a non-zero code. -/
theorem for_notified_diagnostics (f : CPUArchState → Int) (cpus : List CPUArchState) :
    (notified (kvmclock_vm_state_change_for f cpus) = cpus ∧
      diagnostics (kvmclock_vm_state_change_for f cpus) = [] ∧ ∀ d ∈ cpus, f d = 0) ∨
    ∃ (k : Nat) (c : CPUArchState),
      cpus[k]? = some c ∧ (∀ d ∈ cpus.take k, f d = 0) ∧ f c ≠ 0 ∧
      notified (kvmclock_vm_state_change_for f cpus) = cpus.take (k + 1) ∧
      diagnostics (kvmclock_vm_state_change_for f cpus)
        = (if f c ≠ -EINVAL then [-(f c)] else []) := by
  rcases for_cases f cpus with hall | ⟨k, c, hk, hbefore, hc⟩
  · left
    rw [for_all_zero f cpus hall]
    exact ⟨notified_map_ctrl _, diagnostics_map_ctrl _, hall⟩
  · right
    refine ⟨k, c, hk, hbefore, hc, ?_, ?_⟩
    · rw [for_stops_at f k cpus c hk hbefore hc, notified_append, notified_map_ctrl]
      by_cases he : f c = -EINVAL <;> simp [he, notified]
    · rw [for_stops_at f k cpus c hk hbefore hc, diagnostics_append, diagnostics_map_ctrl]
      by_cases he : f c = -EINVAL <;> simp [he, diagnostics]

/-- C17: on a change to running with the capability present, whatever the
ioctls return, a line is written to `stderr` exactly when one of the ioctls
made in this transition returns a code that is neither 0 nor `-EINVAL` while
every ioctl made before it returned 0 or `-EINVAL` (was treated as success).
In terms of the list of CPUs: exactly when the first position with a non-zero
code has a code other than `-EINVAL`. At most one line is written, and the
handler returns to its caller, to which it reports nothing (it is `void`). -/
theorem C17_diagnostic_rule (s : KVMClockState) (running : Int) (state : Nat)
    (first_cpu : List CPUArchState) (kvm_check_extension : Int)
    (kvm_vcpu_ioctl : CPUArchState → Int)
    (hrun : running ≠ 0) (hcap : kvm_check_extension ≠ 0) :
    (diagnostics (kvmclock_vm_state_change s running state first_cpu kvm_check_extension
        kvm_vcpu_ioctl).calls ≠ [] ↔
      ∃ (k : Nat) (c : CPUArchState),
        (notified (kvmclock_vm_state_change s running state first_cpu kvm_check_extension
          kvm_vcpu_ioctl).calls)[k]? = some c ∧
        kvm_vcpu_ioctl c ≠ 0 ∧ kvm_vcpu_ioctl c ≠ -EINVAL ∧
        ∀ d ∈ (notified (kvmclock_vm_state_change s running state first_cpu
            kvm_check_extension kvm_vcpu_ioctl).calls).take k,
          kvm_vcpu_ioctl d = 0 ∨ kvm_vcpu_ioctl d = -EINVAL) ∧
    (diagnostics (kvmclock_vm_state_change s running state first_cpu kvm_check_extension
        kvm_vcpu_ioctl).calls ≠ [] ↔
      ∃ (k : Nat) (c : CPUArchState),
        first_cpu[k]? = some c ∧ kvm_vcpu_ioctl c ≠ 0 ∧ kvm_vcpu_ioctl c ≠ -EINVAL ∧
        ∀ d ∈ first_cpu.take k, kvm_vcpu_ioctl d = 0) ∧
    (diagnostics (kvmclock_vm_state_change s running state first_cpu kvm_check_extension
        kvm_vcpu_ioctl).calls).length ≤ 1 ∧
    (kvmclock_vm_state_change s running state first_cpu kvm_check_extension
        kvm_vcpu_ioctl).ret = () := by
  rw [vm_state_change_calls_of_running s running state first_cpu _ _ hrun hcap]
  have hN : notified (Call.check_extension ::
      kvmclock_vm_state_change_for kvm_vcpu_ioctl first_cpu)
      = notified (kvmclock_vm_state_change_for kvm_vcpu_ioctl first_cpu) := by
    simp [notified]
  have hD : diagnostics (Call.check_extension ::
      kvmclock_vm_state_change_for kvm_vcpu_ioctl first_cpu)
      = diagnostics (kvmclock_vm_state_change_for kvm_vcpu_ioctl first_cpu) := by
    simp [diagnostics]
  rw [hN, hD]
  rcases for_notified_diagnostics kvm_vcpu_ioctl first_cpu with
    ⟨hnot, hdiag, hall⟩ | ⟨k, c, hk, hbefore, hc, hnot, hdiag⟩
  · rw [hnot, hdiag]
    refine ⟨⟨fun h => absurd rfl h, ?_⟩, ⟨fun h => absurd rfl h, ?_⟩, by simp, rfl⟩
    · rintro ⟨j, e, hj, he, _, _⟩
      exact absurd (hall e (List.getElem?_mem hj)) he
    · rintro ⟨j, e, hj, he, _, _⟩
      exact absurd (hall e (List.getElem?_mem hj)) he
  · rw [hnot, hdiag]
    by_cases he : kvm_vcpu_ioctl c = -EINVAL
    · have hempty : (if kvm_vcpu_ioctl c ≠ -EINVAL then [-(kvm_vcpu_ioctl c)] else [])
          = ([] : List Int) := by simp [he]
      rw [hempty]
      refine ⟨⟨fun h => absurd rfl h, ?_⟩, ⟨fun h => absurd rfl h, ?_⟩, by simp, rfl⟩
      · rintro ⟨j, e, hj, he0, hee, _⟩
        exfalso
        by_cases hjk : j < k
        · have hj' : first_cpu[j]? = some e := by
            rw [List.getElem?_take_of_lt (by omega)] at hj
            exact hj
          exact he0 (hbefore e (mem_take_of_getElem? first_cpu j k e hj' hjk))
        · by_cases hjk' : j = k
          · subst hjk'
            rw [List.getElem?_take_of_succ, hk] at hj
            cases hj
            exact hee he
          · have : (first_cpu.take (k + 1))[j]? = none :=
              List.getElem?_take_eq_none (by omega)
            rw [this] at hj
            cases hj
      · rintro ⟨j, e, hj, he0, hee, hzero⟩
        exfalso
        by_cases hjk : j < k
        · exact he0 (hbefore e (mem_take_of_getElem? first_cpu j k e hj hjk))
        · by_cases hjk' : j = k
          · subst hjk'
            rw [hk] at hj
            cases hj
            exact hee he
          · exact hc (hzero c (mem_take_of_getElem? first_cpu k j c hk (by omega)))
    · have hone : (if kvm_vcpu_ioctl c ≠ -EINVAL then [-(kvm_vcpu_ioctl c)] else [])
          = [-(kvm_vcpu_ioctl c)] := by simp [he]
      rw [hone]
      refine ⟨⟨fun _ => ⟨k, c, ?_, hc, he, ?_⟩, fun _ => by simp⟩,
        ⟨fun _ => ⟨k, c, hk, hc, he, hbefore⟩, fun _ => by simp⟩, by simp, rfl⟩
      · rw [List.getElem?_take_of_succ]
        exact hk
      · intro d hd
        rw [List.take_take] at hd
        have hmin : min k (k + 1) = k := by omega
        rw [hmin] at hd
        exact Or.inl (hbefore d hd)

theorem C17_diagnostic_rule_witness :
    diagnostics (kvmclock_vm_state_change ⟨7, true⟩ 1 0 [0, 1, 2] 1
      (fun penv => if penv = 1 then -5 else 0)).calls = [5] ∧
    diagnostics (kvmclock_vm_state_change ⟨7, true⟩ 1 0 [0, 1, 2] 1
      (fun penv => if penv = 0 then -EINVAL else -5)).calls = [] ∧
    (diagnostics (kvmclock_vm_state_change ⟨7, true⟩ 1 0 [0, 1, 2] 1
      (fun penv => if penv = 1 then -5 else 0)).calls).length ≤ 1 :=
  ⟨by decide, by decide,
    (C17_diagnostic_rule ⟨7, true⟩ 1 0 [0, 1, 2] 1
      (fun penv => if penv = 1 then -5 else 0) (by decide) (by decide)).2.2.1⟩

/-! ## Saves of a running machine -/

theorem written_append (xs ys : List Call) :
    written (xs ++ ys) = written xs ++ written ys := by
  induction xs with
  | nil => rfl
  | cons x xs ih => cases x <;> simp [written, ih]

theorem run_snoc (vm : VM) (ops : List Op) (op : Op) :
    VM.run vm (ops ++ [op]) = (VM.run vm ops).step op := by
  rw [run_append]
  rfl

/-- Saves delivered to a running machine whose `clock_valid` is clear: the
machine stays running, `clock_valid` stays clear, and every save adds one
`KVM_GET_CLOCK` call. -/
theorem run_pre_saves_running (gs : List (Int × Nat)) (vm : VM)
    (hr : vm.running = true) (hv : vm.s.clock_valid = false) :
    (VM.run vm (gs.map Op.pre_save)).running = true ∧
    (VM.run vm (gs.map Op.pre_save)).s.clock_valid = false ∧
    reads (VM.run vm (gs.map Op.pre_save)).calls = reads vm.calls + gs.length := by
  induction gs generalizing vm with
  | nil => exact ⟨hr, hv, rfl⟩
  | cons g gs ih =>
    rw [List.map_cons, run_cons]
    have hstep : vm.step (Op.pre_save g)
        = ⟨⟨if g.1 < 0 then 0 else g.2, false⟩, true,
            vm.calls ++ Call.get_clock :: (if g.1 < 0 then [Call.fprintf g.1] else [])⟩ := by
      simp [VM.step, hr, pre_save_of_invalid vm.s g true hv]
    obtain ⟨h1, h2, h3⟩ := ih (vm.step (Op.pre_save g)) (by rw [hstep]) (by rw [hstep])
    refine ⟨h1, h2, ?_⟩
    rw [h3, hstep]
    by_cases hg : g.1 < 0 <;> simp [reads, hg] <;> omega

/-- C16: saves of a machine that stays running, starting with `clock_valid`
clear. After any number of saves followed by one more, whatever
`KVM_GET_CLOCK` answers to each: that last save made exactly one
`KVM_GET_CLOCK` call (so `n` saves make `n` calls), `clock_valid` is clear,
and `clock` is the reading of that last save, or 0 if its read failed. -/
theorem C16_running_reads_never_cached (clock : Nat) (gs : List (Int × Nat))
    (g : Int × Nat) :
    (VM.run ⟨⟨clock, false⟩, true, []⟩ ((gs ++ [g]).map Op.pre_save)).s.clock_valid = false ∧
    (VM.run ⟨⟨clock, false⟩, true, []⟩ ((gs ++ [g]).map Op.pre_save)).s.clock
      = (if g.1 < 0 then 0 else g.2) ∧
    reads (kvmclock_pre_save (VM.run ⟨⟨clock, false⟩, true, []⟩ (gs.map Op.pre_save)).s g
      true).calls = 1 ∧
    reads (VM.run ⟨⟨clock, false⟩, true, []⟩ ((gs ++ [g]).map Op.pre_save)).calls
      = gs.length + 1 := by
  obtain ⟨hr, hv, hreads⟩ :=
    run_pre_saves_running gs ⟨⟨clock, false⟩, true, []⟩ rfl rfl
  have hlast : reads (kvmclock_pre_save
      (VM.run ⟨⟨clock, false⟩, true, []⟩ (gs.map Op.pre_save)).s g true).calls = 1 := by
    rw [pre_save_of_invalid _ g true hv]
    by_cases hg : g.1 < 0 <;> simp [reads, hg]
  rw [List.map_append, List.map_cons, List.map_nil, run_snoc]
  refine ⟨?_, ?_, hlast, ?_⟩
  · simp [VM.step, hr, pre_save_of_invalid _ g true hv]
  · simp [VM.step, hr, pre_save_of_invalid _ g true hv]
  · have hsum : reads ((VM.run ⟨⟨clock, false⟩, true, []⟩ (gs.map Op.pre_save)).step
        (Op.pre_save g)).calls
        = reads (VM.run ⟨⟨clock, false⟩, true, []⟩ (gs.map Op.pre_save)).calls
          + reads (kvmclock_pre_save
              (VM.run ⟨⟨clock, false⟩, true, []⟩ (gs.map Op.pre_save)).s g true).calls := by
      simp only [VM.step, hr]
      exact reads_append _ _
    rw [hsum, hlast, hreads]
    simp [reads]

/-! ## A stop, resume, stop scenario -/

/-- C14: a stopped machine with `clock_valid` clear goes through: save,
change to running, change to stopped, save, load. When both `KVM_GET_CLOCK`
calls succeed, with readings `R` and `R'` (any two values): after the first
save `clock = R` and `clock_valid` is set; after the change to running
`clock_valid` is clear; the second save calls `KVM_GET_CLOCK` again (two
calls so far) and leaves `clock = R'`; and the load hands `KVM_SET_CLOCK`
exactly `R'`. -/
theorem C14_stop_resume_stop (clock : Nat) (ret ret' : Int) (R R' : Nat)
    (running : Int) (state state' : Nat) (first_cpu first_cpu' : List CPUArchState)
    (cap cap' : Int) (kvm_vcpu_ioctl kvm_vcpu_ioctl' : CPUArchState → Int)
    (version_id : Int) (kvm_set_clock : Nat → Nat → Int)
    (hret : 0 ≤ ret) (hret' : 0 ≤ ret') (hrun : running ≠ 0) :
    (VM.run ⟨⟨clock, false⟩, false, []⟩ [Op.pre_save (ret, R)]).s = ⟨R, true⟩ ∧
    (VM.run ⟨⟨clock, false⟩, false, []⟩
      [Op.pre_save (ret, R),
       Op.vm_state_change running state first_cpu cap kvm_vcpu_ioctl]).s.clock_valid
      = false ∧
    (VM.run ⟨⟨clock, false⟩, false, []⟩
      [Op.pre_save (ret, R),
       Op.vm_state_change running state first_cpu cap kvm_vcpu_ioctl,
       Op.vm_state_change 0 state' first_cpu' cap' kvm_vcpu_ioctl']).running = false ∧
    (VM.run ⟨⟨clock, false⟩, false, []⟩
      [Op.pre_save (ret, R),
       Op.vm_state_change running state first_cpu cap kvm_vcpu_ioctl,
       Op.vm_state_change 0 state' first_cpu' cap' kvm_vcpu_ioctl',
       Op.pre_save (ret', R')]).s = ⟨R', true⟩ ∧
    reads (VM.run ⟨⟨clock, false⟩, false, []⟩
      [Op.pre_save (ret, R),
       Op.vm_state_change running state first_cpu cap kvm_vcpu_ioctl,
       Op.vm_state_change 0 state' first_cpu' cap' kvm_vcpu_ioctl',
       Op.pre_save (ret', R')]).calls = 2 ∧
    written (VM.run ⟨⟨clock, false⟩, false, []⟩
      [Op.pre_save (ret, R),
       Op.vm_state_change running state first_cpu cap kvm_vcpu_ioctl,
       Op.vm_state_change 0 state' first_cpu' cap' kvm_vcpu_ioctl',
       Op.pre_save (ret', R'),
       Op.post_load version_id kvm_set_clock]).calls = [R'] := by
  have hn : ¬ ret < 0 := not_lt.mpr hret
  have hn' : ¬ ret' < 0 := not_lt.mpr hret'
  obtain ⟨rest, hcalls, _, hreads, hwritten⟩ :=
    vm_state_change_calls_cons ⟨R, true⟩ running state first_cpu cap kvm_vcpu_ioctl
  have hs := vm_state_change_s_of_running ⟨R, true⟩ running state first_cpu cap
    kvm_vcpu_ioctl hrun
  have hstop : kvmclock_vm_state_change ⟨R, false⟩ 0 state' first_cpu' cap' kvm_vcpu_ioctl'
      = ⟨(), ⟨R, false⟩, [Call.check_extension]⟩ := by
    simp [kvmclock_vm_state_change]
  have h1 : VM.run ⟨⟨clock, false⟩, false, []⟩ [Op.pre_save (ret, R)]
      = ⟨⟨R, true⟩, false, [Call.get_clock]⟩ := by
    simp [VM.run, VM.step, kvmclock_pre_save, hn]
  have h2 : VM.run ⟨⟨clock, false⟩, false, []⟩
      [Op.pre_save (ret, R), Op.vm_state_change running state first_cpu cap kvm_vcpu_ioctl]
      = ⟨⟨R, false⟩, true, Call.get_clock :: Call.check_extension :: rest⟩ := by
    rw [show [Op.pre_save (ret, R),
        Op.vm_state_change running state first_cpu cap kvm_vcpu_ioctl]
        = [Op.pre_save (ret, R)]
          ++ [Op.vm_state_change running state first_cpu cap kvm_vcpu_ioctl] from rfl,
      run_snoc, h1]
    simp [VM.step, hs, hcalls, hrun]
  have h3 : VM.run ⟨⟨clock, false⟩, false, []⟩
      [Op.pre_save (ret, R), Op.vm_state_change running state first_cpu cap kvm_vcpu_ioctl,
       Op.vm_state_change 0 state' first_cpu' cap' kvm_vcpu_ioctl']
      = ⟨⟨R, false⟩, false,
          Call.get_clock :: Call.check_extension :: (rest ++ [Call.check_extension])⟩ := by
    rw [show [Op.pre_save (ret, R),
        Op.vm_state_change running state first_cpu cap kvm_vcpu_ioctl,
        Op.vm_state_change 0 state' first_cpu' cap' kvm_vcpu_ioctl']
        = [Op.pre_save (ret, R),
            Op.vm_state_change running state first_cpu cap kvm_vcpu_ioctl]
          ++ [Op.vm_state_change 0 state' first_cpu' cap' kvm_vcpu_ioctl'] from rfl,
      run_snoc, h2]
    simp [VM.step, hstop]
  have h4 : VM.run ⟨⟨clock, false⟩, false, []⟩
      [Op.pre_save (ret, R), Op.vm_state_change running state first_cpu cap kvm_vcpu_ioctl,
       Op.vm_state_change 0 state' first_cpu' cap' kvm_vcpu_ioctl', Op.pre_save (ret', R')]
      = ⟨⟨R', true⟩, false,
          Call.get_clock :: Call.check_extension ::
            (rest ++ [Call.check_extension, Call.get_clock])⟩ := by
    rw [show [Op.pre_save (ret, R),
        Op.vm_state_change running state first_cpu cap kvm_vcpu_ioctl,
        Op.vm_state_change 0 state' first_cpu' cap' kvm_vcpu_ioctl', Op.pre_save (ret', R')]
        = [Op.pre_save (ret, R),
            Op.vm_state_change running state first_cpu cap kvm_vcpu_ioctl,
            Op.vm_state_change 0 state' first_cpu' cap' kvm_vcpu_ioctl']
          ++ [Op.pre_save (ret', R')] from rfl,
      run_snoc, h3]
    simp [VM.step, kvmclock_pre_save, hn']
  have h5 : VM.run ⟨⟨clock, false⟩, false, []⟩
      [Op.pre_save (ret, R), Op.vm_state_change running state first_cpu cap kvm_vcpu_ioctl,
       Op.vm_state_change 0 state' first_cpu' cap' kvm_vcpu_ioctl', Op.pre_save (ret', R'),
       Op.post_load version_id kvm_set_clock]
      = ⟨⟨R', true⟩, false,
          Call.get_clock :: Call.check_extension ::
            (rest ++ [Call.check_extension, Call.get_clock, Call.set_clock R' 0])⟩ := by
    rw [show [Op.pre_save (ret, R),
        Op.vm_state_change running state first_cpu cap kvm_vcpu_ioctl,
        Op.vm_state_change 0 state' first_cpu' cap' kvm_vcpu_ioctl', Op.pre_save (ret', R'),
        Op.post_load version_id kvm_set_clock]
        = [Op.pre_save (ret, R),
            Op.vm_state_change running state first_cpu cap kvm_vcpu_ioctl,
            Op.vm_state_change 0 state' first_cpu' cap' kvm_vcpu_ioctl',
            Op.pre_save (ret', R')]
          ++ [Op.post_load version_id kvm_set_clock] from rfl,
      run_snoc, h4]
    simp [VM.step, kvmclock_post_load]
  rw [h1, h2, h3, h4, h5]
  refine ⟨rfl, rfl, rfl, rfl, ?_, ?_⟩
  · have : reads (Call.get_clock :: Call.check_extension ::
        (rest ++ [Call.check_extension, Call.get_clock]))
        = 1 + (reads rest + 1) := by
      simp [reads, List.count_cons, List.count_append]
      omega
    rw [this, hreads]
  · have : written (Call.get_clock :: Call.check_extension ::
        (rest ++ [Call.check_extension, Call.get_clock, Call.set_clock R' 0]))
        = written rest ++ [R'] := by
      simp [written, written_append]
    rw [this, hwritten]
    rfl

theorem C14_stop_resume_stop_witness :
    (VM.run ⟨⟨7, false⟩, false, []⟩
      [Op.pre_save (0, 100),
       Op.vm_state_change 1 0 [0, 1] 1 (fun _ => 0),
       Op.vm_state_change 0 0 [0, 1] 1 (fun _ => 0),
       Op.pre_save (0, 250)]).s = ⟨250, true⟩ ∧
    written (VM.run ⟨⟨7, false⟩, false, []⟩
      [Op.pre_save (0, 100),
       Op.vm_state_change 1 0 [0, 1] 1 (fun _ => 0),
       Op.vm_state_change 0 0 [0, 1] 1 (fun _ => 0),
       Op.pre_save (0, 250),
       Op.post_load 1 (fun _ _ => 0)]).calls = [250] := by
  have h := C14_stop_resume_stop 7 0 0 100 250 1 0 0 [0, 1] [0, 1] 1 1 (fun _ => 0)
    (fun _ => 0) 1 (fun _ _ => 0) (by decide) (by decide) (by decide)
  exact ⟨h.2.2.2.1, h.2.2.2.2.2⟩

end KVMClock
